import Mathlib

/-!
Verification of the Gray-Scott reaction-diffusion engine of this repository.

Embedded source:
- `src/simulation/grayScott.ts`: `createSimulationState`, `laplacian`,
  `stepSimulation`, `resetSimulation`.
- `src/hooks/useReactionDiffusion.ts` (the simulation loop): the `step`
  callback, which runs `stepsPerFrame` engine steps and then renders once.

Modelling conventions.
The source computes with JS doubles and stores concentrations in
`Float32Array`s; we embed the arithmetic exactly over `ℚ` (the usual exact
idealisation of the float code).  Decimal constants become exact rationals:
0.1 is 1/10, 0.15 is 3/20, 0.5 is 1/2, 0.25 is 1/4.  A concentration grid is a
row-major `List ℚ` of length `width * height`, read through `gridGet` (reads
outside the array, which the source never performs on well-formed fields,
default to 0).  `Math.random()` is modelled by an explicit stream
`rng : ℕ → ℚ` of successive return values, consumed in source call order.
`Math.floor` on a JS number is `Int.floor` on `ℚ`; for a nonnegative integer
JS division like `width / 2` followed by `Math.floor`, this is natural-number
division.
-/

unseal Rat.add Rat.sub Rat.mul Rat.inv

/-- clamp01 models `Math.max(0, Math.min(1, x))`, applied by `stepSimulation`
to every freshly computed cell value (grayScott.ts lines 196-197). -/
def clamp01 (x : ℚ) : ℚ := max 0 (min 1 x)

/-- gridGet reads one cell of a row-major grid; index `i` stands for
`y * width + x`.  Out-of-range reads (never performed by the embedded code on
well-formed fields) default to 0. -/
def gridGet (g : List ℚ) (i : ℕ) : ℚ := g.getD i 0

/-- The four Gray-Scott coefficients (interface `GrayScottParams`). -/
structure GrayScottParams where
  du : ℚ
  dv : ℚ
  f : ℚ
  k : ℚ

/-- The field state (interface `SimulationState`): grid dimensions plus the
two concentration arrays. -/
structure SimulationState where
  width : ℕ
  height : ℕ
  u : List ℚ
  v : List ℚ

/-- The seed-pattern variant selected at creation and reset
(`'center' | 'random' | 'multiple'`). -/
inductive SeedType where
  | center
  | random
  | multiple

/-- inCircle dx dy radius models the source test
`Math.sqrt(dx*dx + dy*dy) < radius`.  Both sides of that comparison being
nonnegative reals, it is equivalent to `0 ≤ radius ∧ dx*dx+dy*dy < radius*radius`
(for radius < 0 the source test is false, and so is this one). -/
def inCircle (dx dy radius : ℚ) : Prop :=
  0 ≤ radius ∧ dx * dx + dy * dy < radius * radius

instance (dx dy radius : ℚ) : Decidable (inCircle dx dy radius) :=
  inferInstanceAs (Decidable (0 ≤ radius ∧ dx * dx + dy * dy < radius * radius))

/-- Radius of the `'center'` seed: `Math.min(width, height) * 0.1`. -/
def centerSeedRadius (width height : ℕ) : ℚ := (min width height : ℕ) * (1/10)

/-- Cell `(x, y)` is written by the `'center'` seed pattern: distance to
`(Math.floor(width/2), Math.floor(height/2))` below `centerSeedRadius`
(grayScott.ts lines 55-73). -/
def centerSeeded (width height x y : ℕ) : Prop :=
  inCircle ((x : ℚ) - (width / 2 : ℕ)) ((y : ℚ) - (height / 2 : ℕ))
    (centerSeedRadius width height)

instance (width height x y : ℕ) : Decidable (centerSeeded width height x y) :=
  inferInstanceAs (Decidable (inCircle _ _ _))

/-- spacing n models `width / (gridSize + 1)` with `gridSize = 3`:
JS float division, hence exact rational division. -/
def spacing (n : ℕ) : ℚ := (n : ℚ) / 4

/-- Radius of each `'multiple'` seed:
`Math.min(spacingX, spacingY) * 0.15`. -/
def multipleRadius (width height : ℕ) : ℚ :=
  min (spacing width) (spacing height) * (3/20)

/-- Cell `(x, y)` is written by the `'multiple'` seed pattern: the nine circle
centers are `(Math.floor(gx * spacingX), Math.floor(gy * spacingY))` for
`gx, gy ∈ {1,2,3}` (grayScott.ts lines 97-123).  All nine passes write the
same constant values, so the final array holds the seeded value exactly at
cells covered by at least one circle. -/
def multipleSeeded (width height x y : ℕ) : Prop :=
  ∃ gy ∈ Finset.Icc (1 : ℕ) 3, ∃ gx ∈ Finset.Icc (1 : ℕ) 3,
    inCircle ((x : ℚ) - ⌊(gx : ℚ) * spacing width⌋)
      ((y : ℚ) - ⌊(gy : ℚ) * spacing height⌋) (multipleRadius width height)

instance (width height x y : ℕ) : Decidable (multipleSeeded width height x y) := by
  unfold multipleSeeded
  infer_instance

/-- numSeeds of the `'random'` pattern: `3 + Math.floor(Math.random() * 5)`,
consuming the first stream value. -/
def randomSeedCount (rng : ℕ → ℚ) : ℕ := 3 + (⌊rng 0 * 5⌋).toNat

/-- x-center of random seed `s`: `Math.floor(Math.random() * width)`; the
three stream draws of seed `s` are stream positions `3s+1, 3s+2, 3s+3`
(source call order). -/
def randomSeedX (rng : ℕ → ℚ) (width : ℕ) (s : ℕ) : ℤ := ⌊rng (3*s+1) * width⌋

/-- y-center of random seed `s`: `Math.floor(Math.random() * height)`. -/
def randomSeedY (rng : ℕ → ℚ) (height : ℕ) (s : ℕ) : ℤ := ⌊rng (3*s+2) * height⌋

/-- Radius of random seed `s`: `5 + Math.random() * 10`. -/
def randomSeedR (rng : ℕ → ℚ) (s : ℕ) : ℚ := 5 + rng (3*s+3) * 10

/-- Iteration count of `for (let d = -radius; d <= radius; d++)`: the loop
visits `d = -radius + i` for natural `i` with `-radius + i ≤ radius`, that is
`i ≤ 2*radius`, giving `⌊2*radius⌋ + 1` iterations (0 when radius < 0). -/
def offsetCount (radius : ℚ) : ℕ := (⌊2 * radius⌋ + 1).toNat

/-- randomWrites: one random seed writes flat cell `c` of the grid
(grayScott.ts lines 82-95).  The loop offsets are `dy = -r + i`, `dx = -r + j`
(outer `dy`, inner `dx`); `nx = x + dx`, `ny = y + dy` must pass the bounds
guard, the distance test must pass, and the store `u[ny*width+nx]` takes
effect on a `Float32Array` exactly when the computed index is an integer
index of the array, which the final equation with the natural number `c`
captures (a JS typed array silently drops stores at non-integer or
out-of-range numeric indices). -/
def randomWrites (width height : ℕ) (sx sy : ℤ) (r : ℚ) (c : ℕ) : Prop :=
  ∃ i ∈ Finset.range (offsetCount r), ∃ j ∈ Finset.range (offsetCount r),
    0 ≤ (sx : ℚ) + (-r + j) ∧ (sx : ℚ) + (-r + j) < width ∧
    0 ≤ (sy : ℚ) + (-r + i) ∧ (sy : ℚ) + (-r + i) < height ∧
    inCircle (-r + j) (-r + i) r ∧
    ((sy : ℚ) + (-r + i)) * width + ((sx : ℚ) + (-r + j)) = (c : ℚ)

instance (width height : ℕ) (sx sy : ℤ) (r : ℚ) (c : ℕ) :
    Decidable (randomWrites width height sx sy r c) := by
  unfold randomWrites
  infer_instance

/-- Flat cell `c` is written by some seed of the `'random'` pattern
(grayScott.ts lines 74-96); all seeds write the same constant values, so the
final array holds the seeded value exactly at cells written at least once. -/
def randomSeeded (rng : ℕ → ℚ) (width height : ℕ) (c : ℕ) : Prop :=
  ∃ s ∈ Finset.range (randomSeedCount rng),
    randomWrites width height (randomSeedX rng width s) (randomSeedY rng height s)
      (randomSeedR rng s) c

instance (rng : ℕ → ℚ) (width height c : ℕ) :
    Decidable (randomSeeded rng width height c) := by
  unfold randomSeeded
  infer_instance

/-- seededCell: flat cell `c` is overwritten by the selected seed pattern.
For the two deterministic patterns the cell coordinates are
`x = c % width`, `y = c / width` (the creation loops write `idx = y*width+x`,
which enumerates exactly the flat indices below `width*height`). -/
def seededCell (width height : ℕ) (seedType : SeedType) (rng : ℕ → ℚ) (c : ℕ) : Prop :=
  match seedType with
  | .center => centerSeeded width height (c % width) (c / width)
  | .random => randomSeeded rng width height c
  | .multiple => multipleSeeded width height (c % width) (c / width)

instance (width height : ℕ) (seedType : SeedType) (rng : ℕ → ℚ) (c : ℕ) :
    Decidable (seededCell width height seedType rng c) :=
  match seedType with
  | .center => inferInstanceAs (Decidable (centerSeeded width height (c % width) (c / width)))
  | .random => inferInstanceAs (Decidable (randomSeeded rng width height c))
  | .multiple => inferInstanceAs (Decidable (multipleSeeded width height (c % width) (c / width)))

/-- createSimulationState (grayScott.ts lines 42-127): arrays of size
`width*height`, `u` filled with 1.0 and `v` with 0.0, then the seed pattern
overwrites covered cells with `u = 0.5`, `v = 0.25`. -/
def createSimulationState (width height : ℕ) (seedType : SeedType) (rng : ℕ → ℚ) :
    SimulationState :=
  { width := width
    height := height
    u := (List.range (width * height)).map fun c =>
      if seededCell width height seedType rng c then 1/2 else 1
    v := (List.range (width * height)).map fun c =>
      if seededCell width height seedType rng c then 1/4 else 0 }

/-- laplacian (grayScott.ts lines 132-150): 5-point stencil with periodic
neighbor lookup, `left + right + up + down - 4*center`.  The JS index
`(x - 1 + width) % width` equals `(x + width - 1) % width` on naturals
(no underflow: in JS `x - 1` may be -1 but `x - 1 + width ≥ 0`). -/
def laplacian (grid : List ℚ) (width height x y : ℕ) : ℚ :=
  gridGet grid (y * width + (x + width - 1) % width) +
    gridGet grid (y * width + (x + 1) % width) +
    gridGet grid ((y + height - 1) % height * width + x) +
    gridGet grid ((y + 1) % height * width + x) -
    4 * gridGet grid (y * width + x)

/-- stepCellU: the value stored into `uNew[idx]` for cell `(x, y)`
(grayScott.ts lines 169-198): `reaction = u*v*v`,
`dUdt = du*lapU - reaction + f*(1 - u)`, Euler step, then clamp. -/
def stepCellU (s : SimulationState) (p : GrayScottParams) (dt : ℚ) (x y : ℕ) : ℚ :=
  clamp01 (gridGet s.u (y * s.width + x) +
    dt * (p.du * laplacian s.u s.width s.height x y -
      gridGet s.u (y * s.width + x) * gridGet s.v (y * s.width + x) *
        gridGet s.v (y * s.width + x) +
      p.f * (1 - gridGet s.u (y * s.width + x))))

/-- stepCellV: the value stored into `vNew[idx]` for cell `(x, y)`:
`dVdt = dv*lapV + reaction - (f + k)*v`, Euler step, then clamp. -/
def stepCellV (s : SimulationState) (p : GrayScottParams) (dt : ℚ) (x y : ℕ) : ℚ :=
  clamp01 (gridGet s.v (y * s.width + x) +
    dt * (p.dv * laplacian s.v s.width s.height x y +
      gridGet s.u (y * s.width + x) * gridGet s.v (y * s.width + x) *
        gridGet s.v (y * s.width + x) -
      (p.f + p.k) * gridGet s.v (y * s.width + x)))

/-- stepSimulation (grayScott.ts lines 156-204): every new value is computed
into the scratch arrays `uNew`/`vNew` from the unmodified pre-step `u`/`v`,
and only afterwards copied back (`u.set(uNew); v.set(vNew)`); the pure
simultaneous update below is exactly that double-buffered semantics.  The
loops write `idx = y*width+x` for all `y < height`, `x < width`, covering
each flat index `c < width*height` once with `x = c % width`,
`y = c / width`. -/
def stepSimulation (s : SimulationState) (p : GrayScottParams) (dt : ℚ) :
    SimulationState :=
  { width := s.width
    height := s.height
    u := (List.range (s.width * s.height)).map fun c =>
      stepCellU s p dt (c % s.width) (c / s.width)
    v := (List.range (s.width * s.height)).map fun c =>
      stepCellV s p dt (c % s.width) (c / s.width) }

/-- resetSimulation (grayScott.ts lines 209-217): re-create at the existing
dimensions and copy the fresh arrays over the old ones.  On a field whose
arrays have length `width*height`, `u.set(newState.u)` is a full overwrite,
modelled by replacing the arrays. -/
def resetSimulation (s : SimulationState) (seedType : SeedType) (rng : ℕ → ℚ) :
    SimulationState :=
  { s with
    u := (createSimulationState s.width s.height seedType rng).u
    v := (createSimulationState s.width s.height seedType rng).v }

/-- engineSteps models the batch loop of the hook callbacks
(`for (let i = 0; i < steps; i++) stepSimulation(state, paramsRef.current, dt)`):
a left fold of the engine step over the loop counter. -/
def engineSteps (p : GrayScottParams) (dt : ℚ) (n : ℕ) (s : SimulationState) :
    SimulationState :=
  (List.range n).foldl (fun acc _ => stepSimulation acc p dt) s

/-- The simulation-loop session state of `useReactionDiffusion`: the owned
field (`stateRef`), the play/pause flag (`isPlaying`), the configured batch
size (`stepsPerFrameRef`), and the number of renders performed so far
(an abstract trace of `render()` calls). -/
structure LoopState where
  sim : SimulationState
  isPlaying : Bool
  stepsPerFrame : ℕ
  renderCount : ℕ

/-- loopStep: the `step` callback of `useReactionDiffusion`
(useReactionDiffusion.ts lines 196-205): run `stepsPerFrame` sequential
engine steps on the owned field, then render once.  It never touches
`setIsPlaying`, so the play/pause flag is untouched. -/
def loopStep (ls : LoopState) (p : GrayScottParams) (dt : ℚ) : LoopState :=
  { ls with
    sim := engineSteps p dt ls.stepsPerFrame ls.sim
    renderCount := ls.renderCount + 1 }

/-- specLaplacian states the spec formula for the discrete Laplacian in the
order the spec writes it:
`L(field,x,y) = field[N] + field[S] + field[E] + field[W] - 4*field[x,y]`,
with each neighbor index wrapped modulo grid width/height. -/
def specLaplacian (g : List ℚ) (w h x y : ℕ) : ℚ :=
  gridGet g ((y + h - 1) % h * w + x) + gridGet g ((y + 1) % h * w + x) +
    gridGet g (y * w + (x + 1) % w) + gridGet g (y * w + (x + w - 1) % w) -
    4 * gridGet g (y * w + x)

/-- specNewU states the spec update equation
`clamp01(u + dt*(du*Lu - u*v*v + f*(1-u)))` for cell `(x, y)`, reading only
the pre-step arrays of `s`. -/
def specNewU (s : SimulationState) (p : GrayScottParams) (dt : ℚ) (x y : ℕ) : ℚ :=
  clamp01 (gridGet s.u (y * s.width + x) +
    dt * (p.du * specLaplacian s.u s.width s.height x y -
      gridGet s.u (y * s.width + x) * gridGet s.v (y * s.width + x) *
        gridGet s.v (y * s.width + x) +
      p.f * (1 - gridGet s.u (y * s.width + x))))

/-- specNewV states the spec update equation
`clamp01(v + dt*(dv*Lv + u*v*v - (f+k)*v))` for cell `(x, y)`, reading only
the pre-step arrays of `s`. -/
def specNewV (s : SimulationState) (p : GrayScottParams) (dt : ℚ) (x y : ℕ) : ℚ :=
  clamp01 (gridGet s.v (y * s.width + x) +
    dt * (p.dv * specLaplacian s.v s.width s.height x y +
      gridGet s.u (y * s.width + x) * gridGet s.v (y * s.width + x) *
        gridGet s.v (y * s.width + x) -
      (p.f + p.k) * gridGet s.v (y * s.width + x)))

/-- pertField: the rest state (`u = 1`, `v = 0` everywhere) with a single-cell
perturbation `u = a`, `v = b` at cell `(px, py)`. -/
def pertField (w h px py : ℕ) (a b : ℚ) : SimulationState :=
  { width := w
    height := h
    u := (List.range (w * h)).map fun c => if c = py * w + px then a else 1
    v := (List.range (w * h)).map fun c => if c = py * w + px then b else 0 }

/-- A constant random stream (the deterministic patterns ignore it). -/
def rng0 : ℕ → ℚ := fun _ => 0

/-- The default Gray-Scott parameter set of the scenario claims:
`du=0.16, dv=0.08, f=0.035, k=0.065` as exact rationals. -/
def defaultParams : GrayScottParams := ⟨4/25, 2/25, 7/200, 13/200⟩

/-- The state of the 4x4 `'center'` scenario after exactly one step with the
default parameters and `dt = 1`. -/
def scenarioState : SimulationState :=
  stepSimulation (createSimulationState 4 4 SeedType.center rng0) defaultParams 1

/-- A second constant random stream, distinct from `rng0`. -/
def rngHalf : ℕ → ℚ := fun _ => 1/2

/-- The diffusion-only counterexample field: a 3x3 grid with `v = 0`
everywhere and `u = 1` everywhere except the single center cell, where
`u = 0`. -/
def massField : SimulationState := ⟨3, 3, [1, 1, 1, 1, 0, 1, 1, 1, 1], [0, 0, 0, 0, 0, 0, 0, 0, 0]⟩

/-- Diffusion-only parameters with zero feed and kill and `du = 1`. -/
def massParams : GrayScottParams := ⟨1, 0, 0, 0⟩

/-- A driven-far 2x2 field used to exercise reset. -/
def drivenField : SimulationState := ⟨2, 2, [0, 0, 0, 0], [1, 1, 1, 1]⟩

/-- The random stream of the random-seed counterexample: `numSeeds`
draw 0, then per seed the draws (x, y, radius) = (13/19, 1/8, 3/40), giving
three identical seeds centered `(13, 0)` with radius `5.75` on a 19x2 grid. -/
def strayRng : ℕ → ℚ := fun n =>
  if n = 0 then 0 else if n % 3 = 1 then 13/19 else if n % 3 = 2 then 1/8 else 3/40

/-- Reading a mapped range list inside its length yields the mapped value. -/
theorem getD_range_map (n : ℕ) (f : ℕ → ℚ) (i : ℕ) (h : i < n) :
    ((List.range n).map f).getD i 0 = f i := by
  simp [List.getD_eq_getElem?_getD, List.getElem?_map, List.getElem?_range h]

/-- Reading past the end of a list yields the default 0. -/
theorem getD_of_le (l : List ℚ) (i : ℕ) (h : l.length ≤ i) : l.getD i 0 = 0 := by
  simp [List.getD_eq_getElem?_getD, List.getElem?_eq_none h]

/-- Row-major flat index of an in-bounds cell is in bounds. -/
theorem idx_lt {x y w h : ℕ} (hx : x < w) (hy : y < h) : y * w + x < w * h :=
  calc y * w + x < y * w + w := by omega
  _ = (y + 1) * w := by ring
  _ ≤ h * w := Nat.mul_le_mul_right w hy
  _ = w * h := Nat.mul_comm h w

/-- Column of a row-major flat index. -/
theorem flat_mod {x w : ℕ} (hx : x < w) (y : ℕ) : (y * w + x) % w = x := by
  rw [Nat.mul_comm, Nat.mul_add_mod, Nat.mod_eq_of_lt hx]

/-- Row of a row-major flat index. -/
theorem flat_div {x w : ℕ} (hx : x < w) (y : ℕ) : (y * w + x) / w = y := by
  rw [Nat.mul_comm, Nat.mul_add_div (by omega), Nat.div_eq_of_lt hx, Nat.add_zero]

/-- The post-step u array, read at an in-bounds cell. -/
theorem stepU_getD (s : SimulationState) (p : GrayScottParams) (dt : ℚ)
    {x y : ℕ} (hx : x < s.width) (hy : y < s.height) :
    gridGet (stepSimulation s p dt).u (y * s.width + x) = stepCellU s p dt x y := by
  show ((List.range (s.width * s.height)).map fun c =>
    stepCellU s p dt (c % s.width) (c / s.width)).getD (y * s.width + x) 0 = _
  rw [getD_range_map _ _ _ (idx_lt hx hy)]
  rw [flat_mod hx, flat_div hx]

/-- The post-step v array, read at an in-bounds cell. -/
theorem stepV_getD (s : SimulationState) (p : GrayScottParams) (dt : ℚ)
    {x y : ℕ} (hx : x < s.width) (hy : y < s.height) :
    gridGet (stepSimulation s p dt).v (y * s.width + x) = stepCellV s p dt x y := by
  show ((List.range (s.width * s.height)).map fun c =>
    stepCellV s p dt (c % s.width) (c / s.width)).getD (y * s.width + x) 0 = _
  rw [getD_range_map _ _ _ (idx_lt hx hy)]
  rw [flat_mod hx, flat_div hx]

/-- clamp01 never returns a negative value. -/
theorem clamp01_nonneg (x : ℚ) : 0 ≤ clamp01 x := le_max_left 0 _

/-- clamp01 never returns a value above 1. -/
theorem clamp01_le_one (x : ℚ) : clamp01 x ≤ 1 :=
  max_le (by norm_num) (min_le_left 1 x)

/-- clamp01 is the identity on [0, 1]. -/
theorem clamp01_of_bounds {x : ℚ} (h0 : 0 ≤ x) (h1 : x ≤ 1) : clamp01 x = x := by
  unfold clamp01
  rw [min_eq_right h1, max_eq_right h0]

/-- C1: for every field whose u and v arrays have length width*height, every
parameter set and every dt, one stepSimulation call replaces each cell by
`u = clamp01(u + dt*(du*Lu - u*v*v + f*(1-u)))` and
`v = clamp01(v + dt*(dv*Lv + u*v*v - (f+k)*v))` with 5-point Laplacians whose
neighbor indices wrap modulo width and height, and every new value is
computed exclusively from the pre-step arrays (the right-hand sides below
read only `s.u` and `s.v`). -/
theorem C1_step_formula (s : SimulationState) (p : GrayScottParams) (dt : ℚ)
    (hu : s.u.length = s.width * s.height) (hv : s.v.length = s.width * s.height)
    {x y : ℕ} (hx : x < s.width) (hy : y < s.height) :
    (stepSimulation s p dt).u.length = s.width * s.height ∧
    (stepSimulation s p dt).v.length = s.width * s.height ∧
    gridGet (stepSimulation s p dt).u (y * s.width + x) = specNewU s p dt x y ∧
    gridGet (stepSimulation s p dt).v (y * s.width + x) = specNewV s p dt x y := by
  refine ⟨by simp [stepSimulation], by simp [stepSimulation], ?_, ?_⟩
  · rw [stepU_getD s p dt hx hy]
    unfold stepCellU specNewU
    apply congrArg clamp01
    unfold laplacian specLaplacian
    ring
  · rw [stepV_getD s p dt hx hy]
    unfold stepCellV specNewV
    apply congrArg clamp01
    unfold laplacian specLaplacian
    ring

/-- C1 witness: the formula theorem applied to a concrete 2x2 field. -/
theorem C1_step_formula_wit :
    gridGet (stepSimulation drivenField defaultParams 1).u (1 * 2 + 1) =
      specNewU drivenField defaultParams 1 1 1 :=
  (C1_step_formula drivenField defaultParams 1 (by decide) (by decide)
    (by decide) (by decide)).2.2.1

/-- C2: createSimulationState always yields arrays whose values lie in [0,1]
(they are 1, 1/2, 0 or 1/4), for every dimension pair, seed pattern and
random draw; and stepSimulation always yields arrays whose values lie in
[0,1] (every stored value passes through clamp01), for every input field and
all parameters and dt. -/
theorem C2_clamp_invariant :
    (∀ (w h : ℕ) (pat : SeedType) (rng : ℕ → ℚ) (q : ℚ),
      q ∈ (createSimulationState w h pat rng).u → 0 ≤ q ∧ q ≤ 1) ∧
    (∀ (w h : ℕ) (pat : SeedType) (rng : ℕ → ℚ) (q : ℚ),
      q ∈ (createSimulationState w h pat rng).v → 0 ≤ q ∧ q ≤ 1) ∧
    (∀ (s : SimulationState) (p : GrayScottParams) (dt : ℚ) (q : ℚ),
      q ∈ (stepSimulation s p dt).u → 0 ≤ q ∧ q ≤ 1) ∧
    (∀ (s : SimulationState) (p : GrayScottParams) (dt : ℚ) (q : ℚ),
      q ∈ (stepSimulation s p dt).v → 0 ≤ q ∧ q ≤ 1) := by
  refine ⟨?_, ?_, ?_, ?_⟩
  · intro w h pat rng q hq
    rcases List.mem_map.1 hq with ⟨c, _, rfl⟩
    split <;> norm_num
  · intro w h pat rng q hq
    rcases List.mem_map.1 hq with ⟨c, _, rfl⟩
    split <;> norm_num
  · intro s p dt q hq
    rcases List.mem_map.1 hq with ⟨c, _, rfl⟩
    exact ⟨clamp01_nonneg _, clamp01_le_one _⟩
  · intro s p dt q hq
    rcases List.mem_map.1 hq with ⟨c, _, rfl⟩
    exact ⟨clamp01_nonneg _, clamp01_le_one _⟩

/-- C2 witness: the invariant applied to concrete members of a concrete
created field and of a concrete stepped field. -/
theorem C2_clamp_invariant_wit :
    (0 ≤ (1/2 : ℚ) ∧ (1/2 : ℚ) ≤ 1) ∧ (0 ≤ (1/4 : ℚ) ∧ (1/4 : ℚ) ≤ 1) :=
  ⟨C2_clamp_invariant.1 2 2 SeedType.center rng0 (1/2) (by decide),
   C2_clamp_invariant.2.1 2 2 SeedType.center rng0 (1/4) (by decide)⟩

/-- C3: for the center and multiple patterns, the composition of create with
N steps is a deterministic function of (width, height, params, dt, N): its
output does not depend on the random stream at all, so two runs with
different streams produce identical u and v arrays.  The random pattern is
exempted (its output reads the stream). -/
theorem C3_determinism (w h : ℕ) (pat : SeedType)
    (hpat : pat = SeedType.center ∨ pat = SeedType.multiple)
    (p : GrayScottParams) (dt : ℚ) (rng1 rng2 : ℕ → ℚ) (N : ℕ) :
    engineSteps p dt N (createSimulationState w h pat rng1) =
      engineSteps p dt N (createSimulationState w h pat rng2) := by
  have hc : createSimulationState w h pat rng1 = createSimulationState w h pat rng2 := by
    rcases hpat with rfl | rfl <;> rfl
  rw [hc]

/-- C3 witness: two runs of create plus two steps on a 3x3 center field with
different random streams agree. -/
theorem C3_determinism_wit :
    engineSteps defaultParams 1 2 (createSimulationState 3 3 SeedType.center rng0) =
      engineSteps defaultParams 1 2 (createSimulationState 3 3 SeedType.center rngHalf) :=
  C3_determinism 3 3 SeedType.center (Or.inl rfl) defaultParams 1 rng0 rngHalf 2

/-- C4: for every well-formed field and every non-random pattern,
resetSimulation keeps width and height and makes the arrays equal to those
of a fresh createSimulationState at the same dimensions (with any stream,
since the non-random patterns ignore it), regardless of the current
contents. -/
theorem C4_reset (s : SimulationState) (pat : SeedType)
    (hpat : pat = SeedType.center ∨ pat = SeedType.multiple)
    (hu : s.u.length = s.width * s.height) (hv : s.v.length = s.width * s.height)
    (rng rng2 : ℕ → ℚ) :
    (resetSimulation s pat rng).width = s.width ∧
    (resetSimulation s pat rng).height = s.height ∧
    (resetSimulation s pat rng).u = (createSimulationState s.width s.height pat rng2).u ∧
    (resetSimulation s pat rng).v = (createSimulationState s.width s.height pat rng2).v := by
  rcases hpat with rfl | rfl <;> exact ⟨rfl, rfl, rfl, rfl⟩

/-- C4 witness: resetting a driven-far 2x2 field restores a fresh center
field. -/
theorem C4_reset_wit :
    (resetSimulation drivenField SeedType.center rng0).u =
      (createSimulationState 2 2 SeedType.center rngHalf).u :=
  (C4_reset drivenField SeedType.center (Or.inl rfl) (by decide) (by decide)
    rng0 rngHalf).2.2.1

/-- C8 counterexample: width 0 is a non-positive dimension, yet
createSimulationState neither signals any error nor clamps the dimensions to
positive integers: the source performs no validation (Float32Array(0) is
legal), and returns a degenerate zero-width field with empty arrays. -/
theorem C8_create_cex :
    (createSimulationState 0 3 SeedType.center rng0).width = 0 ∧
    (createSimulationState 0 3 SeedType.center rng0).u = [] ∧
    (createSimulationState 0 3 SeedType.center rng0).v = [] :=
  ⟨rfl, rfl, rfl⟩

/-- C8 amended: createSimulationState performs no dimension validation at
all; for every (including non-positive) width and height it returns, without
any error, a field carrying the requested dimensions unchanged and arrays of
length width*height. -/
theorem C8_create_total (w h : ℕ) (pat : SeedType) (rng : ℕ → ℚ) :
    (createSimulationState w h pat rng).width = w ∧
    (createSimulationState w h pat rng).height = h ∧
    (createSimulationState w h pat rng).u.length = w * h ∧
    (createSimulationState w h pat rng).v.length = w * h := by
  refine ⟨rfl, rfl, ?_, ?_⟩ <;> simp [createSimulationState]

/-- C9: the loop step callback, callable in either play state, performs
exactly stepsPerFrame sequential engine steps (the fold equals the iterated
composition, each step feeding the next) followed by exactly one render, and
leaves the play/pause flag (and the configured batch size) unchanged. -/
theorem C9_loop_step (ls : LoopState) (p : GrayScottParams) (dt : ℚ) :
    (loopStep ls p dt).isPlaying = ls.isPlaying ∧
    (loopStep ls p dt).stepsPerFrame = ls.stepsPerFrame ∧
    (loopStep ls p dt).renderCount = ls.renderCount + 1 ∧
    (loopStep ls p dt).sim =
      Nat.iterate (fun s => stepSimulation s p dt) ls.stepsPerFrame ls.sim ∧
    ∀ n s, engineSteps p dt (n + 1) s = stepSimulation (engineSteps p dt n s) p dt := by
  have key : ∀ (n : ℕ) (s : SimulationState),
      engineSteps p dt n s = Nat.iterate (fun s => stepSimulation s p dt) n s := by
    intro n
    induction n with
    | zero => intro s; rfl
    | succ n ih =>
      intro s
      unfold engineSteps at ih ⊢
      rw [List.range_succ, List.foldl_append, ih, List.foldl_cons, List.foldl_nil,
        Function.iterate_succ_apply']
  refine ⟨rfl, rfl, rfl, key _ _, ?_⟩
  intro n s
  rw [key (n + 1) s, key n s, Function.iterate_succ_apply']

/-- C9 witness: the loop step applied at a concrete session state in the
stopped state with two steps per frame. -/
theorem C9_loop_step_wit :
    (loopStep ⟨drivenField, false, 2, 7⟩ defaultParams 1).isPlaying = false :=
  (C9_loop_step ⟨drivenField, false, 2, 7⟩ defaultParams 1).1

/-- C7 counterexample: in the 4x4 center scenario (default parameters,
dt = 1, one step) the claimed strict inequality fails: the center-block cell
(1,1) is not adjacent to the seeded cell (2,2) under the 5-point stencil, so
its v value is 0, equal to (not greater than) the corner value at (0,0). -/
theorem C7_center_cex :
    ¬ gridGet scenarioState.v (0 * 4 + 0) < gridGet scenarioState.v (1 * 4 + 1) := by
  decide

/-- C7 amended: in the same scenario, every v value in the center 2x2 block
(flat cells 5, 6, 9, 10) is greater than or equal to every corner v value
(flat cells 0, 3, 12, 15), and the three center-block cells adjacent to the
seeded center (6, 9, 10) are strictly greater; only cell 5 = (1,1) ties the
corners at 0. -/
theorem C7_center_block :
    (∀ c ∈ ({5, 6, 9, 10} : Finset ℕ), ∀ d ∈ ({0, 3, 12, 15} : Finset ℕ),
      gridGet scenarioState.v d ≤ gridGet scenarioState.v c) ∧
    (∀ c ∈ ({6, 9, 10} : Finset ℕ), ∀ d ∈ ({0, 3, 12, 15} : Finset ℕ),
      gridGet scenarioState.v d < gridGet scenarioState.v c) := by
  decide

/-- C7 witness: the amended block comparison applied at cell 6 = (2,1)
against corner 0 = (0,0). -/
theorem C7_center_block_wit :
    gridGet scenarioState.v 0 < gridGet scenarioState.v 6 :=
  C7_center_block.2 6 (by decide) 0 (by decide)

/-- Width projection of a perturbed field. -/
theorem pert_width (w h px py : ℕ) (a b : ℚ) : (pertField w h px py a b).width = w := rfl

/-- Height projection of a perturbed field. -/
theorem pert_height (w h px py : ℕ) (a b : ℚ) : (pertField w h px py a b).height = h := rfl

/-- Reading the u array of a perturbed field inside the grid. -/
theorem pertU_get (w h px py : ℕ) (a b : ℚ) {n : ℕ} (hn : n < w * h) :
    gridGet (pertField w h px py a b).u n = if n = py * w + px then a else 1 := by
  show ((List.range (w * h)).map fun c => if c = py * w + px then a else (1:ℚ)).getD n 0 = _
  rw [getD_range_map _ _ _ hn]

/-- Reading the v array of a perturbed field inside the grid. -/
theorem pertV_get (w h px py : ℕ) (a b : ℚ) {n : ℕ} (hn : n < w * h) :
    gridGet (pertField w h px py a b).v n = if n = py * w + px then b else 0 := by
  show ((List.range (w * h)).map fun c => if c = py * w + px then b else (0:ℚ)).getD n 0 = _
  rw [getD_range_map _ _ _ hn]

/-- C6: periodic-boundary wiring: for every grid with at least two columns
and one row and all parameters, a single-cell perturbation at (1,0) observed
at cell (0,0) after one stepSimulation equals a perturbation at (0,0)
observed at cell (width-1, 0): the wrapped neighbor lookup makes the update
translation-invariant on the torus, with no clamped or reflective boundary
behavior at the edges. -/
theorem C6_wrap (w h : ℕ) (hw : 2 ≤ w) (hh : 1 ≤ h)
    (p : GrayScottParams) (dt a b : ℚ) :
    gridGet (stepSimulation (pertField w h 1 0 a b) p dt).u 0 =
      gridGet (stepSimulation (pertField w h 0 0 a b) p dt).u (w - 1) ∧
    gridGet (stepSimulation (pertField w h 1 0 a b) p dt).v 0 =
      gridGet (stepSimulation (pertField w h 0 0 a b) p dt).v (w - 1) := by
  have hw0 : 0 < w := by omega
  have hh0 : 0 < h := by omega
  have hle : w ≤ w * h := Nat.le_mul_of_pos_right w hh0
  have hwh0 : 0 < w * h := by omega
  have h1wh : 1 < w * h := by omega
  have hwm1 : w - 1 < w * h := by omega
  have hwm2 : w - 2 < w * h := by omega
  have hprod : (h - 1) * w + w = w * h := by
    have e : h - 1 + 1 = h := by omega
    calc (h - 1) * w + w = (h - 1 + 1) * w := by ring
    _ = h * w := by rw [e]
    _ = w * h := Nat.mul_comm h w
  have hup_lt : (h - 1) * w < w * h := by omega
  have hup2_lt : (h - 1) * w + (w - 1) < w * h := by omega
  have hup1 : (h - 1) * w = 0 ∨ w ≤ (h - 1) * w := by
    rcases Nat.eq_zero_or_pos (h - 1) with e | pos
    · left
      rw [e, Nat.zero_mul]
    · right
      calc w = 1 * w := (Nat.one_mul w).symm
      _ ≤ (h - 1) * w := Nat.mul_le_mul_right w pos
  have hd1 : 1 % h = 0 ∨ 1 % h = 1 := by
    rcases Nat.lt_or_ge 1 h with hlt | hge
    · right
      exact Nat.mod_eq_of_lt hlt
    · left
      have e : h = 1 := by omega
      rw [e]
  have hd2 : 1 % h * w = 0 ∨ (1 % h * w = w ∧ w ≤ (h - 1) * w) := by
    rcases hd1 with e | e
    · left
      rw [e, Nat.zero_mul]
    · right
      have h2 : 2 ≤ h := by
        rcases Nat.lt_or_ge 1 h with hlt | hge
        · omega
        · exfalso
          have : h = 1 := by omega
          rw [this] at e
          simp at e
      constructor
      · rw [e, Nat.one_mul]
      · calc w = 1 * w := (Nat.one_mul w).symm
        _ ≤ (h - 1) * w := Nat.mul_le_mul_right w (by omega)
  have hdn_lt : 1 % h * w < w * h := by omega
  have hdn2_lt : 1 % h * w + (w - 1) < w * h := by omega
  -- reading the two post-step fields at the observed cells
  have e1 : gridGet (stepSimulation (pertField w h 1 0 a b) p dt).u 0 =
      stepCellU (pertField w h 1 0 a b) p dt 0 0 := by
    simpa using @stepU_getD (pertField w h 1 0 a b) p dt 0 0 hw0 hh0
  have e2 : gridGet (stepSimulation (pertField w h 0 0 a b) p dt).u (w - 1) =
      stepCellU (pertField w h 0 0 a b) p dt (w - 1) 0 := by
    simpa using @stepU_getD (pertField w h 0 0 a b) p dt (w - 1) 0 (by show w - 1 < w; omega) hh0
  have e3 : gridGet (stepSimulation (pertField w h 1 0 a b) p dt).v 0 =
      stepCellV (pertField w h 1 0 a b) p dt 0 0 := by
    simpa using @stepV_getD (pertField w h 1 0 a b) p dt 0 0 hw0 hh0
  have e4 : gridGet (stepSimulation (pertField w h 0 0 a b) p dt).v (w - 1) =
      stepCellV (pertField w h 0 0 a b) p dt (w - 1) 0 := by
    simpa using @stepV_getD (pertField w h 0 0 a b) p dt (w - 1) 0 (by show w - 1 < w; omega) hh0
  -- the five matching pre-step u reads
  have hcu : gridGet (pertField w h 1 0 a b).u 0 = gridGet (pertField w h 0 0 a b).u (w - 1) := by
    rw [pertU_get w h 1 0 a b hwh0, pertU_get w h 0 0 a b hwm1]
    rw [if_neg (by omega), if_neg (by omega)]
  have hlu : gridGet (pertField w h 1 0 a b).u (w - 1) =
      gridGet (pertField w h 0 0 a b).u (w - 2) := by
    rw [pertU_get w h 1 0 a b hwm1, pertU_get w h 0 0 a b hwm2]
    exact if_congr (by omega) rfl rfl
  have hru : gridGet (pertField w h 1 0 a b).u 1 = gridGet (pertField w h 0 0 a b).u 0 := by
    rw [pertU_get w h 1 0 a b h1wh, pertU_get w h 0 0 a b hwh0]
    rw [if_pos (by omega), if_pos (by omega)]
  have huu : gridGet (pertField w h 1 0 a b).u ((h - 1) * w) =
      gridGet (pertField w h 0 0 a b).u ((h - 1) * w + (w - 1)) := by
    rw [pertU_get w h 1 0 a b hup_lt, pertU_get w h 0 0 a b hup2_lt]
    rw [if_neg (by omega), if_neg (by omega)]
  have hdu : gridGet (pertField w h 1 0 a b).u (1 % h * w) =
      gridGet (pertField w h 0 0 a b).u (1 % h * w + (w - 1)) := by
    rw [pertU_get w h 1 0 a b hdn_lt, pertU_get w h 0 0 a b hdn2_lt]
    rw [if_neg (by omega), if_neg (by omega)]
  -- the five matching pre-step v reads
  have hcv : gridGet (pertField w h 1 0 a b).v 0 = gridGet (pertField w h 0 0 a b).v (w - 1) := by
    rw [pertV_get w h 1 0 a b hwh0, pertV_get w h 0 0 a b hwm1]
    rw [if_neg (by omega), if_neg (by omega)]
  have hlv : gridGet (pertField w h 1 0 a b).v (w - 1) =
      gridGet (pertField w h 0 0 a b).v (w - 2) := by
    rw [pertV_get w h 1 0 a b hwm1, pertV_get w h 0 0 a b hwm2]
    exact if_congr (by omega) rfl rfl
  have hrv : gridGet (pertField w h 1 0 a b).v 1 = gridGet (pertField w h 0 0 a b).v 0 := by
    rw [pertV_get w h 1 0 a b h1wh, pertV_get w h 0 0 a b hwh0]
    rw [if_pos (by omega), if_pos (by omega)]
  have huv : gridGet (pertField w h 1 0 a b).v ((h - 1) * w) =
      gridGet (pertField w h 0 0 a b).v ((h - 1) * w + (w - 1)) := by
    rw [pertV_get w h 1 0 a b hup_lt, pertV_get w h 0 0 a b hup2_lt]
    rw [if_neg (by omega), if_neg (by omega)]
  have hdv : gridGet (pertField w h 1 0 a b).v (1 % h * w) =
      gridGet (pertField w h 0 0 a b).v (1 % h * w + (w - 1)) := by
    rw [pertV_get w h 1 0 a b hdn_lt, pertV_get w h 0 0 a b hdn2_lt]
    rw [if_neg (by omega), if_neg (by omega)]
  -- index arithmetic rewrites
  have modw : (w - 1) % w = w - 1 := Nat.mod_eq_of_lt (by omega)
  have mod1w : 1 % w = 1 := Nat.mod_eq_of_lt (by omega)
  have modh : (h - 1) % h = h - 1 := Nat.mod_eq_of_lt (by omega)
  have eA : (w - 1 + w - 1) % w = w - 2 := by
    have e : w - 1 + w - 1 = w + (w - 2) := by omega
    rw [e, Nat.add_mod_left]
    exact Nat.mod_eq_of_lt (by omega)
  have eR : (w - 1 + 1) % w = 0 := by
    have e : w - 1 + 1 = w := by omega
    rw [e, Nat.mod_self]
  constructor
  · rw [e1, e2]
    unfold stepCellU laplacian
    simp only [pert_width, pert_height, Nat.zero_mul, Nat.zero_add, Nat.add_zero]
    rw [modw, mod1w, modh, eA, eR]
    rw [hcu, hlu, hru, huu, hdu, hcv]
  · rw [e3, e4]
    unfold stepCellV laplacian
    simp only [pert_width, pert_height, Nat.zero_mul, Nat.zero_add, Nat.add_zero]
    rw [modw, mod1w, modh, eA, eR]
    rw [hcv, hlv, hrv, huv, hdv, hcu]

/-- C6 witness: the wrap equality on a concrete 3x2 grid with the default
parameters and perturbation values (1/2, 1/4). -/
theorem C6_wrap_wit :
    gridGet (stepSimulation (pertField 3 2 1 0 (1/2) (1/4)) defaultParams 1).u 0 =
      gridGet (stepSimulation (pertField 3 2 0 0 (1/2) (1/4)) defaultParams 1).u (3 - 1) :=
  (C6_wrap 3 2 (by decide) (by decide) defaultParams 1 (1/2) (1/4)).1

/-- A list sum as a sum of reads. -/
theorem list_sum_getD (l : List ℚ) : l.sum = ∑ i ∈ Finset.range l.length, l.getD i 0 := by
  induction l with
  | nil => simp
  | cons a l ih =>
    rw [List.sum_cons, List.length_cons, Finset.sum_range_succ']
    simp only [List.getD_cons_succ, List.getD_cons_zero]
    rw [← ih]
    ring

/-- The sum of a mapped range list. -/
theorem sum_range_map (n : ℕ) (f : ℕ → ℚ) :
    ((List.range n).map f).sum = ∑ i ∈ Finset.range n, f i := by
  rw [list_sum_getD]
  have hl : ((List.range n).map f).length = n := by simp
  rw [hl]
  exact Finset.sum_congr rfl fun i hi => getD_range_map n f i (Finset.mem_range.1 hi)

/-- Splitting a range sum at an intermediate point. -/
theorem sum_range_add (f : ℕ → ℚ) (m n : ℕ) :
    ∑ i ∈ Finset.range (m + n), f i =
      (∑ i ∈ Finset.range m, f i) + ∑ i ∈ Finset.range n, f (m + i) := by
  induction n with
  | zero => simp
  | succ n ih =>
    rw [Nat.add_succ, Finset.sum_range_succ, ih, Finset.sum_range_succ, add_assoc]

/-- A flat grid sum as a double sum over rows and columns. -/
theorem sum_grid (w h : ℕ) (F : ℕ → ℚ) :
    ∑ c ∈ Finset.range (w * h), F c =
      ∑ y ∈ Finset.range h, ∑ x ∈ Finset.range w, F (y * w + x) := by
  induction h with
  | zero => simp
  | succ h ih =>
    rw [Nat.mul_succ, sum_range_add, ih, Finset.sum_range_succ, Nat.mul_comm w h]

/-- Cyclic shift by one does not change a sum over a full period. -/
theorem sum_range_shift_one (w : ℕ) (hw : 0 < w) (g : ℕ → ℚ) :
    ∑ x ∈ Finset.range w, g ((x + 1) % w) = ∑ x ∈ Finset.range w, g x := by
  obtain ⟨n, rfl⟩ : ∃ n, w = n + 1 := ⟨w - 1, by omega⟩
  rw [Finset.sum_range_succ, Finset.sum_range_succ' g n, Nat.mod_self]
  congr 1
  apply Finset.sum_congr rfl
  intro x hx
  have hx' := Finset.mem_range.1 hx
  rw [Nat.mod_eq_of_lt (by omega)]

/-- Cyclic shift by minus one does not change a sum over a full period. -/
theorem sum_range_shift_pred (w : ℕ) (hw : 0 < w) (g : ℕ → ℚ) :
    ∑ x ∈ Finset.range w, g ((x + w - 1) % w) = ∑ x ∈ Finset.range w, g x := by
  have key := sum_range_shift_one w hw (fun t => g ((t + w - 1) % w))
  simp only [] at key
  rw [← key]
  apply Finset.sum_congr rfl
  intro x hx
  have hx' := Finset.mem_range.1 hx
  have e1 : (x + 1) % w + w - 1 = (x + 1) % w + (w - 1) := by omega
  have e2 : ((x + 1) % w + (w - 1)) % w = (x + 1 + (w - 1)) % w := Nat.mod_add_mod _ _ _
  have e3 : x + 1 + (w - 1) = x + w := by omega
  rw [e1, e2, e3, Nat.add_mod_right, Nat.mod_eq_of_lt hx']

/-- The periodic 5-point Laplacian sums to zero over the whole grid. -/
theorem lap_sum_zero (g : List ℚ) (w h : ℕ) (hw : 0 < w) (hh : 0 < h) :
    ∑ y ∈ Finset.range h, ∑ x ∈ Finset.range w, laplacian g w h x y = 0 := by
  unfold laplacian
  have TL : ∀ y : ℕ, ∑ x ∈ Finset.range w, gridGet g (y * w + (x + w - 1) % w) =
      ∑ x ∈ Finset.range w, gridGet g (y * w + x) :=
    fun y => sum_range_shift_pred w hw (fun t => gridGet g (y * w + t))
  have TR : ∀ y : ℕ, ∑ x ∈ Finset.range w, gridGet g (y * w + (x + 1) % w) =
      ∑ x ∈ Finset.range w, gridGet g (y * w + x) :=
    fun y => sum_range_shift_one w hw (fun t => gridGet g (y * w + t))
  have TU : ∑ y ∈ Finset.range h, ∑ x ∈ Finset.range w, gridGet g ((y + h - 1) % h * w + x) =
      ∑ y ∈ Finset.range h, ∑ x ∈ Finset.range w, gridGet g (y * w + x) :=
    sum_range_shift_pred h hh (fun t => ∑ x ∈ Finset.range w, gridGet g (t * w + x))
  have TD : ∑ y ∈ Finset.range h, ∑ x ∈ Finset.range w, gridGet g ((y + 1) % h * w + x) =
      ∑ y ∈ Finset.range h, ∑ x ∈ Finset.range w, gridGet g (y * w + x) :=
    sum_range_shift_one h hh (fun t => ∑ x ∈ Finset.range w, gridGet g (t * w + x))
  calc ∑ y ∈ Finset.range h, ∑ x ∈ Finset.range w,
      (gridGet g (y * w + (x + w - 1) % w) + gridGet g (y * w + (x + 1) % w) +
        gridGet g ((y + h - 1) % h * w + x) + gridGet g ((y + 1) % h * w + x) -
        4 * gridGet g (y * w + x))
      = (∑ y ∈ Finset.range h, ∑ x ∈ Finset.range w, gridGet g (y * w + (x + w - 1) % w)) +
        (∑ y ∈ Finset.range h, ∑ x ∈ Finset.range w, gridGet g (y * w + (x + 1) % w)) +
        (∑ y ∈ Finset.range h, ∑ x ∈ Finset.range w, gridGet g ((y + h - 1) % h * w + x)) +
        (∑ y ∈ Finset.range h, ∑ x ∈ Finset.range w, gridGet g ((y + 1) % h * w + x)) -
        4 * ∑ y ∈ Finset.range h, ∑ x ∈ Finset.range w, gridGet g (y * w + x) := by
        simp only [Finset.sum_add_distrib, Finset.sum_sub_distrib, ← Finset.mul_sum]
  _ = 0 := by
        simp only [Finset.sum_congr rfl fun y _ => TL y, Finset.sum_congr rfl fun y _ => TR y,
          TU, TD]
        ring

/-- clamp01 fixes 0. -/
theorem clamp01_zero : clamp01 0 = 0 := by
  unfold clamp01
  norm_num

/-- Bounded list values give bounded reads (the default 0 is in range). -/
theorem getD_bounds {l : List ℚ} (hb : ∀ q ∈ l, 0 ≤ q ∧ q ≤ 1) (i : ℕ) :
    0 ≤ l.getD i 0 ∧ l.getD i 0 ≤ 1 := by
  rcases Nat.lt_or_ge i l.length with hi | hi
  · rw [List.getD_eq_getElem l 0 hi]
    exact hb _ (List.getElem_mem hi)
  · rw [getD_of_le l i hi]
    norm_num

/-- All-zero list values give zero reads. -/
theorem getD_zero {l : List ℚ} (hb : ∀ q ∈ l, q = 0) (i : ℕ) : l.getD i 0 = 0 := by
  rcases Nat.lt_or_ge i l.length with hi | hi
  · rw [List.getD_eq_getElem l 0 hi]
    exact hb _ (List.getElem_mem hi)
  · exact getD_of_le l i hi

/-- Under pure diffusion with a mild step (`0 ≤ dt*du ≤ 1/4`), zero v, zero
feed and kill, and u values in [0,1], the clamp never engages and the new u
value is the plain Euler diffusion update. -/
theorem step_diffusion_cell (s : SimulationState) (p : GrayScottParams) (dt : ℚ)
    (hu : ∀ i, 0 ≤ gridGet s.u i ∧ gridGet s.u i ≤ 1)
    (hv0 : ∀ i, gridGet s.v i = 0)
    (hf : p.f = 0)
    (h0 : 0 ≤ dt * p.du) (h4 : dt * p.du ≤ 1/4) (x y : ℕ) :
    stepCellU s p dt x y =
      gridGet s.u (y * s.width + x) + dt * p.du * laplacian s.u s.width s.height x y := by
  unfold stepCellU
  rw [hv0 (y * s.width + x), hf]
  have harg : gridGet s.u (y * s.width + x) +
      dt * (p.du * laplacian s.u s.width s.height x y -
        gridGet s.u (y * s.width + x) * 0 * 0 + 0 * (1 - gridGet s.u (y * s.width + x))) =
      gridGet s.u (y * s.width + x) + dt * p.du * laplacian s.u s.width s.height x y := by
    ring
  rw [harg]
  have hc := hu (y * s.width + x)
  have hn1 := hu (y * s.width + (x + s.width - 1) % s.width)
  have hn2 := hu (y * s.width + (x + 1) % s.width)
  have hn3 := hu ((y + s.height - 1) % s.height * s.width + x)
  have hn4 := hu ((y + 1) % s.height * s.width + x)
  have ht1 : (0:ℚ) ≤ 1 - 4 * (dt * p.du) := by linarith
  apply clamp01_of_bounds
  · unfold laplacian
    nlinarith [mul_nonneg h0 hn1.1, mul_nonneg h0 hn2.1, mul_nonneg h0 hn3.1,
      mul_nonneg h0 hn4.1, mul_nonneg hc.1 ht1]
  · unfold laplacian
    nlinarith [mul_nonneg h0 (by linarith : (0:ℚ) ≤ 1 - gridGet s.u (y * s.width + (x + s.width - 1) % s.width)),
      mul_nonneg h0 (by linarith : (0:ℚ) ≤ 1 - gridGet s.u (y * s.width + (x + 1) % s.width)),
      mul_nonneg h0 (by linarith : (0:ℚ) ≤ 1 - gridGet s.u ((y + s.height - 1) % s.height * s.width + x)),
      mul_nonneg h0 (by linarith : (0:ℚ) ≤ 1 - gridGet s.u ((y + 1) % s.height * s.width + x)),
      mul_nonneg (by linarith : (0:ℚ) ≤ 1 - gridGet s.u (y * s.width + x)) ht1]

/-- With zero v everywhere, the new v value of any cell is zero. -/
theorem step_v_zero (s : SimulationState) (p : GrayScottParams) (dt : ℚ)
    (hv0 : ∀ i, gridGet s.v i = 0) (i : ℕ) :
    gridGet (stepSimulation s p dt).v i = 0 := by
  rcases Nat.lt_or_ge i (s.width * s.height) with hi | hi
  · show ((List.range (s.width * s.height)).map fun c =>
      stepCellV s p dt (c % s.width) (c / s.width)).getD i 0 = 0
    rw [getD_range_map _ _ _ hi]
    unfold stepCellV laplacian
    simp only [hv0]
    generalize gridGet s.u (i / s.width * s.width + i % s.width) = X
    have e : (0:ℚ) + dt * (p.dv * (0 + 0 + 0 + 0 - 4 * 0) + X * 0 * 0 - (p.f + p.k) * 0) = 0 := by
      ring
    rw [e, clamp01_zero]
  · show ((List.range (s.width * s.height)).map fun c =>
      stepCellV s p dt (c % s.width) (c / s.width)).getD i 0 = 0
    apply getD_of_le
    simpa using hi

/-- C5 amended: for every well-formed field whose u values lie in [0,1] (in
particular the single-cell configuration of the claim) and whose v values are
all zero, with f = 0, k = 0 and additionally 0 ≤ dt*du ≤ 1/4 (so that the
clamp never engages), one stepSimulation call leaves the sum of u over the
whole grid exactly unchanged (the periodic 5-point Laplacian sums to zero),
and v stays identically zero, so the invariant persists across repeated
steps. -/
theorem C5_mass_conservation (s : SimulationState) (p : GrayScottParams) (dt : ℚ)
    (hul : s.u.length = s.width * s.height)
    (hu : ∀ q ∈ s.u, 0 ≤ q ∧ q ≤ 1)
    (hv : ∀ q ∈ s.v, q = 0)
    (hf : p.f = 0) (hk : p.k = 0)
    (h0 : 0 ≤ dt * p.du) (h4 : dt * p.du ≤ 1/4) :
    (stepSimulation s p dt).u.sum = s.u.sum ∧
    ∀ i, gridGet (stepSimulation s p dt).v i = 0 := by
  have hub : ∀ i, 0 ≤ gridGet s.u i ∧ gridGet s.u i ≤ 1 := fun i => getD_bounds hu i
  have hvb : ∀ i, gridGet s.v i = 0 := fun i => getD_zero hv i
  refine ⟨?_, step_v_zero s p dt hvb⟩
  rcases Nat.eq_zero_or_pos s.width with hw | hw
  · have h1 : (stepSimulation s p dt).u = [] := by
      show (List.range (s.width * s.height)).map _ = []
      rw [hw]
      simp
    have h2 : s.u = [] := List.length_eq_zero.1 (by rw [hul, hw]; simp)
    rw [h1, h2]
  rcases Nat.eq_zero_or_pos s.height with hh | hh
  · have h1 : (stepSimulation s p dt).u = [] := by
      show (List.range (s.width * s.height)).map _ = []
      rw [hh]
      simp
    have h2 : s.u = [] := List.length_eq_zero.1 (by rw [hul, hh]; simp)
    rw [h1, h2]
  have lhs1 : (stepSimulation s p dt).u.sum =
      ∑ c ∈ Finset.range (s.width * s.height), stepCellU s p dt (c % s.width) (c / s.width) := by
    show ((List.range (s.width * s.height)).map _).sum = _
    exact sum_range_map _ _
  have cellEq : ∀ y ∈ Finset.range s.height, ∀ x ∈ Finset.range s.width,
      stepCellU s p dt ((y * s.width + x) % s.width) ((y * s.width + x) / s.width) =
        gridGet s.u (y * s.width + x) + dt * p.du * laplacian s.u s.width s.height x y := by
    intro y hy x hx
    have hx2 := Finset.mem_range.1 hx
    rw [flat_mod hx2, flat_div hx2]
    exact step_diffusion_cell s p dt hub hvb hf h0 h4 x y
  rw [lhs1, sum_grid]
  calc ∑ y ∈ Finset.range s.height, ∑ x ∈ Finset.range s.width,
      stepCellU s p dt ((y * s.width + x) % s.width) ((y * s.width + x) / s.width)
      = ∑ y ∈ Finset.range s.height, ∑ x ∈ Finset.range s.width,
        (gridGet s.u (y * s.width + x) + dt * p.du * laplacian s.u s.width s.height x y) :=
      Finset.sum_congr rfl fun y hy => Finset.sum_congr rfl fun x hx => cellEq y hy x hx
  _ = (∑ y ∈ Finset.range s.height, ∑ x ∈ Finset.range s.width, gridGet s.u (y * s.width + x)) +
      dt * p.du * ∑ y ∈ Finset.range s.height, ∑ x ∈ Finset.range s.width,
        laplacian s.u s.width s.height x y := by
      simp only [Finset.sum_add_distrib, ← Finset.mul_sum]
  _ = ∑ y ∈ Finset.range s.height, ∑ x ∈ Finset.range s.width, gridGet s.u (y * s.width + x) := by
      rw [lap_sum_zero s.u s.width s.height hw hh]
      ring
  _ = ∑ c ∈ Finset.range (s.width * s.height), gridGet s.u c := (sum_grid _ _ _).symm
  _ = s.u.sum := by
      rw [list_sum_getD s.u, hul]
      rfl

/-- C5 counterexample: the premises of the claim hold for massField and
massParams (v zero everywhere, u = 1 everywhere except the center cell with
value 0, f = k = 0), yet with du = 1 and dt = 1 one step changes the summed u
from 8 to 5: the seeded cell receives raw value 4 and is clamped down to 1,
so the clamp destroys mass and the claim fails for unrestricted dt and du. -/
theorem C5_mass_cex :
    (∀ q ∈ massField.v, q = 0) ∧ (∀ q ∈ massField.u, 0 ≤ q ∧ q ≤ 1) ∧
    massParams.f = 0 ∧ massParams.k = 0 ∧
    (stepSimulation massField massParams 1).u.sum ≠ massField.u.sum := by
  decide

/-- C5 witness: exact mass conservation on the concrete counterexample field
once dt is lowered to 1/4. -/
theorem C5_mass_conservation_wit :
    (stepSimulation massField massParams (1/4)).u.sum = massField.u.sum :=
  (C5_mass_conservation massField massParams (1/4) (by decide) (by decide) (by decide)
    rfl rfl (by decide) (by decide)).1

/-- C10 counterexample: a valid random draw (all stream values in [0,1))
with three identical seeds centered (13,0) of radius 5.75 on a 19x2 grid
writes flat cell 23 = (4,1), even though that cell lies at squared distance
82 from every seed center, far beyond the squared radius 33.0625: the loop
offsets are fractional (-5.75 + k), and at ny = 0.25, nx = 18.25 the store
index ny*width+nx = 23 happens to be an integer, so the typed array accepts
a write at a cell far outside the seed circle.  The created u array indeed
holds 0.5 there. -/
theorem C10_random_cex :
    (∀ n, 0 ≤ strayRng n ∧ strayRng n < 1) ∧
    randomSeeded strayRng 19 2 23 ∧
    (∀ s ∈ Finset.range (randomSeedCount strayRng),
      randomSeedR strayRng s * randomSeedR strayRng s ≤
        (((23 % 19 : ℕ) : ℚ) - ((randomSeedX strayRng 19 s : ℤ) : ℚ)) *
          (((23 % 19 : ℕ) : ℚ) - ((randomSeedX strayRng 19 s : ℤ) : ℚ)) +
        (((23 / 19 : ℕ) : ℚ) - ((randomSeedY strayRng 2 s : ℤ) : ℚ)) *
          (((23 / 19 : ℕ) : ℚ) - ((randomSeedY strayRng 2 s : ℤ) : ℚ))) ∧
    gridGet (createSimulationState 19 2 SeedType.random strayRng).u 23 = 1/2 := by
  refine ⟨?_, by decide, by decide, ?_⟩
  · intro n
    unfold strayRng
    split
    · norm_num
    · split
      · norm_num
      · split <;> norm_num
  · show ((List.range (19 * 2)).map fun c =>
      if seededCell 19 2 SeedType.random strayRng c then 1/2 else 1).getD 23 0 = 1/2
    rw [getD_range_map _ _ _ (by norm_num)]
    rw [if_pos (by decide)]

/-- C10 amended: for every random draw whose radii are integers (so the loop
offsets are integers and every attempted store index denotes the intended
cell), every cell written by the random pattern lies strictly inside some
seed circle in true (non-wrapped) Euclidean distance, and its coordinates
satisfy 0 ≤ cx < width and 0 ≤ cy < height: perturbations are clipped at the
grid edges and never wrap to the opposite edge. -/
theorem C10_random_clipped (rng : ℕ → ℚ) (w h : ℕ)
    (hr : ∀ s ∈ Finset.range (randomSeedCount rng), (randomSeedR rng s).den = 1)
    (c : ℕ) (hc : randomSeeded rng w h c) :
    ∃ s ∈ Finset.range (randomSeedCount rng), ∃ cx cy : ℤ,
      0 ≤ cx ∧ cx < w ∧ 0 ≤ cy ∧ cy < h ∧
      (c : ℚ) = cy * w + cx ∧
      ((cx - randomSeedX rng w s : ℤ) : ℚ) * ((cx - randomSeedX rng w s : ℤ) : ℚ) +
        ((cy - randomSeedY rng h s : ℤ) : ℚ) * ((cy - randomSeedY rng h s : ℤ) : ℚ) <
        randomSeedR rng s * randomSeedR rng s := by
  obtain ⟨s, hs, i, hi, j, hj, g1, g2, g3, g4, hcirc, heq⟩ := hc
  refine ⟨s, hs, ?_⟩
  have hden := hr s hs
  have hint : ((randomSeedR rng s).num : ℚ) = randomSeedR rng s :=
    (Rat.den_eq_one_iff _).1 hden
  set r : ℚ := randomSeedR rng s with hrdef
  set m : ℤ := r.num with hmdef
  set sx : ℤ := randomSeedX rng w s with hsxdef
  set sy : ℤ := randomSeedY rng h s with hsydef
  refine ⟨sx + ((j : ℤ) - m), sy + ((i : ℤ) - m), ?_, ?_, ?_, ?_, ?_, ?_⟩
  · have : (0 : ℚ) ≤ ((sx + ((j : ℤ) - m) : ℤ) : ℚ) := by
      push_cast
      rw [hint]
      linarith [g1]
    exact_mod_cast this
  · have : ((sx + ((j : ℤ) - m) : ℤ) : ℚ) < (w : ℚ) := by
      push_cast
      rw [hint]
      linarith [g2]
    exact_mod_cast this
  · have : (0 : ℚ) ≤ ((sy + ((i : ℤ) - m) : ℤ) : ℚ) := by
      push_cast
      rw [hint]
      linarith [g3]
    exact_mod_cast this
  · have : ((sy + ((i : ℤ) - m) : ℤ) : ℚ) < (h : ℚ) := by
      push_cast
      rw [hint]
      linarith [g4]
    exact_mod_cast this
  · push_cast
    rw [hint]
    linarith [heq]
  · have e1 : ((sx + ((j : ℤ) - m) - sx : ℤ) : ℚ) = -r + (j : ℚ) := by
      push_cast
      rw [hint]
      ring
    have e2 : ((sy + ((i : ℤ) - m) - sy : ℤ) : ℚ) = -r + (i : ℚ) := by
      push_cast
      rw [hint]
      ring
    have e3 : sx + ((j : ℤ) - m) - sx = (j : ℤ) - m := by ring
    have e4 : sy + ((i : ℤ) - m) - sy = (i : ℤ) - m := by ring
    rw [e3] at e1
    rw [e4] at e2
    rw [e3, e4, e1, e2]
    exact hcirc.2

/-- C10 witness: the amended clipping statement at a concrete draw (all-zero
stream: three seeds at (0,0) with integer radius 5) and written cell 3. -/
theorem C10_random_clipped_wit :
    ∃ s ∈ Finset.range (randomSeedCount rng0), ∃ cx cy : ℤ,
      0 ≤ cx ∧ cx < 8 ∧ 0 ≤ cy ∧ cy < 8 ∧
      ((3 : ℕ) : ℚ) = cy * 8 + cx ∧
      ((cx - randomSeedX rng0 8 s : ℤ) : ℚ) * ((cx - randomSeedX rng0 8 s : ℤ) : ℚ) +
        ((cy - randomSeedY rng0 8 s : ℤ) : ℚ) * ((cy - randomSeedY rng0 8 s : ℤ) : ℚ) <
        randomSeedR rng0 s * randomSeedR rng0 s :=
  C10_random_clipped rng0 8 8 (by decide) 3 (by decide)
